import Mathlib

/-!
Verification of the DMD rendering core (`src/imageutils.rs`, `src/main.rs`).

The raster/encoding pipeline is embedded shallowly:
* `RgbaImage` / `DynamicImage` become `Img` (dimensions plus a pixel map);
  `put_pixel` is a functional update, imperative pixel loops become `List.foldl`
  over `List.range`, matching the source loops statement by statement.
* Byte buffers (`Box<[u8]>`) become `Buf` (length plus an index-to-byte map);
  `copy_from_slice` of a big-endian `u16` becomes `writeBE16`.
* `u8`/`u16`/`u32` values are `Nat` with explicit `% 2^w` where width matters;
  `i32` offsets are `Int`.
* `f32` arithmetic is modelled exactly over `ℚ`, with `as u32` casts of
  non-negative values modelled by `Nat.floor` (which also matches Rust's
  saturating cast at negative values).
* The two external collaborators are parameters, never stubs of repo code:
  `imageops::resize` (the Lanczos resampler of the `image` crate) is a
  function parameter `resample`, and the `rusttype` font measurements that
  feed `is_text_to_animate` are abstracted as the list of per-line ratios
  returned by `get_text_ratio`.
-/

namespace DmdPlay

/-- One RGBA pixel, each channel an 8-bit value (`image::Rgba<u8>`). -/
structure Rgba where
  r : Nat
  g : Nat
  b : Nat
  a : Nat
deriving DecidableEq

/-- An RGBA raster: dimensions plus the pixel map (`get_pixel`). -/
structure Img where
  width : Nat
  height : Nat
  pix : Nat → Nat → Rgba

/-- `RgbaImage::new(w, h)`: zero-initialised, i.e. every pixel `(0,0,0,0)`. -/
def blankImg (w h : Nat) : Img :=
  ⟨w, h, fun _ _ => ⟨0, 0, 0, 0⟩⟩

/-- `RgbaImage::put_pixel`: functional single-pixel update. -/
def put_pixel (d : Img) (x y : Nat) (p : Rgba) : Img :=
  { d with pix := fun x0 y0 => if x0 = x ∧ y0 = y then p else d.pix x0 y0 }

/-- A pixel whose three colour channels are zero: not ink. -/
def rgb_zero (p : Rgba) : Prop :=
  p.r = 0 ∧ p.g = 0 ∧ p.b = 0

instance (p : Rgba) : Decidable (rgb_zero p) :=
  inferInstanceAs (Decidable (p.r = 0 ∧ p.g = 0 ∧ p.b = 0))

/-- `imageutils.rs` `rgb888_to_rgb565`: 8-bit channels to a packed 5/6/5
16-bit value via right shifts.  Inputs are `u8`, hence the `% 256`. -/
def rgb888_to_rgb565 (r g b : Nat) : Nat :=
  let r5 := (r % 256) >>> 3
  let g6 := (g % 256) >>> 2
  let b5 := (b % 256) >>> 3
  (r5 <<< 11) ||| (g6 <<< 5) ||| b5

/-- `imageutils.rs` `get_dmd_buffer_size`: `width * height * 3`. -/
def get_dmd_buffer_size (width height : Nat) : Nat :=
  width * height * 3

/-- A byte buffer (`Box<[u8]>`): its length and its index-to-byte map. -/
structure Buf where
  size : Nat
  data : Nat → Nat

/-- `bytes[idx..idx + 2].copy_from_slice(&val.to_be_bytes())` for a `u16`
value: byte `idx` gets the high byte, byte `idx + 1` the low byte. -/
def writeBE16 (bytes : Buf) (idx val : Nat) : Buf :=
  { bytes with
    data := fun i =>
      if i = idx then (val % 65536) / 256
      else if i = idx + 1 then val % 256
      else bytes.data i }

/-- `imageutils.rs` `TextAlign`. -/
inductive TextAlign
  | CENTER
  | LEFT
  | RIGHT

/-- `imageutils.rs` `copy_image`: copies every source pixel whose translated
coordinates fall inside the destination bounds; other pixels are skipped.
Offsets are `i32` in the source, hence `Int` here; the in-bounds casts
`(x + x_offset) as u32` become `Int.toNat` (equal on the guarded range). -/
def copy_image (img_src : Img) (img_dst : Img) (x_offset y_offset : Int) : Img :=
  let width_src := img_src.width
  let height_src := img_src.height
  let width_dst := img_dst.width
  let height_dst := img_dst.height
  (List.range height_src).foldl
    (fun d (y : Nat) =>
      (List.range width_src).foldl
        (fun d (x : Nat) =>
          if 0 ≤ (x : Int) + x_offset ∧ (x : Int) + x_offset < (width_dst : Int)
             ∧ 0 ≤ (y : Int) + y_offset ∧ (y : Int) + y_offset < (height_dst : Int) then
            put_pixel d ((x : Int) + x_offset).toNat ((y : Int) + y_offset).toNat
              (img_src.pix x y)
          else d)
        d)
    img_dst

/-- `imageutils.rs` `apply_gradient`: a fresh zeroed raster of the rendered
image's size; inside the gradient extent each pixel is recoloured with the
gradient's RGB (keeping the rendered alpha) when any colour channel exceeds
15 AND alpha is below 245, else set to transparent black; outside the
gradient extent pixels stay at the `RgbaImage::new` default `(0,0,0,0)`. -/
def apply_gradient (img gradient : Img) : Img :=
  let width_img := img.width
  let height_img := img.height
  let width_gradient := gradient.width
  let height_gradient := gradient.height
  let new_img := blankImg width_img height_img
  (List.range height_img).foldl
    (fun ni (y : Nat) =>
      (List.range width_img).foldl
        (fun ni (x : Nat) =>
          if x < width_gradient ∧ y < height_gradient then
            let img_pixel := img.pix x y
            let gradient_pixel := gradient.pix x y
            let min_value := 15
            let max_alpha := 245
            let new_pixel :=
              if (img_pixel.r > min_value ∨ img_pixel.g > min_value
                    ∨ img_pixel.b > min_value)
                  ∧ img_pixel.a < max_alpha then
                Rgba.mk gradient_pixel.r gradient_pixel.g gradient_pixel.b img_pixel.a
              else
                Rgba.mk 0 0 0 0
            put_pixel ni x y new_pixel
          else ni)
        ni)
    new_img

/-- `image2dmdimage`, size-selection step: the `f32` aspect-ratio comparison
and the proportional `as u32` casts, exactly over `ℚ`. -/
def dmd_new_size (orig_width orig_height dmd_width dmd_height : Nat) : Nat × Nat :=
  if (orig_width : ℚ) / (orig_height : ℚ) < (dmd_width : ℚ) / (dmd_height : ℚ) then
    (Nat.floor ((orig_width : ℚ) * (dmd_height : ℚ) / (orig_height : ℚ)), dmd_height)
  else
    (dmd_width, Nat.floor ((orig_height : ℚ) * (dmd_width : ℚ) / (orig_width : ℚ)))

/-- `image2dmdimage`, the resized raster.  `resample` stands for
`imageops::resize(..., FilterType::Lanczos3)` of the external `image` crate. -/
def dmd_resized (resample : Img → Nat → Nat → Img) (orig : Img)
    (dmd_width dmd_height : Nat) : Img :=
  resample orig (dmd_new_size orig.width orig.height dmd_width dmd_height).1
    (dmd_new_size orig.width orig.height dmd_width dmd_height).2

/-- `image2dmdimage`, horizontal placement offset per alignment. -/
def dmd_x_offset (text_align : TextAlign) (dmd_width width : Nat) : Nat :=
  match text_align with
  | TextAlign.CENTER => (dmd_width - width) / 2
  | TextAlign.LEFT => 0
  | TextAlign.RIGHT => dmd_width - width

/-- `image2dmdimage`, vertical placement offset. -/
def dmd_y_offset (dmd_height height : Nat) : Nat :=
  (dmd_height - height) / 2

/-- `image2dmdimage`, pixel loop: for each display pixel inside the placed
region, write the big-endian RGB565 word of the corresponding resized-image
pixel at byte offset `((y * dmd_width) + x) * 2`. -/
def dmd_fill (resized_img : Img) (dmd_width dmd_height x_offset y_offset : Nat)
    (bytes : Buf) : Buf :=
  (List.range dmd_height).foldl
    (fun bytes (y : Nat) =>
      if y_offset ≤ y ∧ y < resized_img.height + y_offset then
        (List.range dmd_width).foldl
          (fun bytes (x : Nat) =>
            if x_offset ≤ x ∧ x < resized_img.width + x_offset then
              writeBE16 bytes ((y * dmd_width + x) * 2)
                (rgb888_to_rgb565 (resized_img.pix (x - x_offset) (y - y_offset)).r
                  (resized_img.pix (x - x_offset) (y - y_offset)).g
                  (resized_img.pix (x - x_offset) (y - y_offset)).b)
            else bytes)
          bytes
      else bytes)
    bytes

/-- `imageutils.rs` `image2dmdimage`: allocate `get_dmd_buffer_size` zero
bytes, then run the `dmd_fill` pixel loop over the placed region.  The source
wraps the result in `Ok`; it never returns `Err`, so the model returns the
buffer directly. -/
def image2dmdimage (resample : Img → Nat → Nat → Img) (orig_img : Img)
    (text_align : TextAlign) (dmd_width dmd_height : Nat) : Buf :=
  let resized_img := dmd_resized resample orig_img dmd_width dmd_height
  let bytes : Buf := ⟨get_dmd_buffer_size dmd_width dmd_height, fun _ => 0⟩
  dmd_fill resized_img dmd_width dmd_height
    (dmd_x_offset text_align dmd_width resized_img.width)
    (dmd_y_offset dmd_height resized_img.height) bytes

/-- `imageutils.rs` `resize_image_to_fit`: identical target dimensions return
the source unchanged (`to_rgba8` of an RGBA image is pixel-identical); else
scale to the limiting axis (the `f32` ratio test and `as u32` casts over `ℚ`)
and place into a fresh canvas, centring vertically or aligning horizontally. -/
def resize_image_to_fit (resample : Img → Nat → Nat → Img) (img : Img)
    (width height : Nat) (text_align : TextAlign) : Img × Nat × Nat :=
  let width_img := img.width
  let height_img := img.height
  if width = width_img ∧ height = height_img then
    (img, 0, width)
  else
    let new_img := blankImg width height
    if (width_img : ℚ) / (height_img : ℚ) > (width : ℚ) / (height : ℚ) then
      let new_width := width
      let new_height := Nat.floor ((height_img : ℚ) * (new_width : ℚ) / (width_img : ℚ))
      let reduced_img := resample img new_width new_height
      (copy_image reduced_img new_img 0 (((height - new_height) / 2 : Nat) : Int), 0, new_width)
    else
      let new_height := height
      let new_width := Nat.floor ((width_img : ℚ) * (new_height : ℚ) / (height_img : ℚ))
      let reduced_img := resample img new_width new_height
      let align_x := dmd_x_offset text_align width new_width
      (copy_image reduced_img new_img (align_x : Int) 0, align_x, new_width)

/-- `generate_text_image`, multi-line branch: `(height - spaces) / nlines`. -/
def section_height_of (height line_spacing nlines : Nat) : Nat :=
  (height - line_spacing * (nlines - 1)) / nlines

/-- `generate_text_image`, multi-line branch: the vertical offset
`section_height as i32 * n + n * line_spacing as i32` of line `n`. -/
def line_offset (section_height line_spacing n : Nat) : Nat :=
  section_height * n + n * line_spacing

/-- Loop state of the multi-line branch of `generate_text_image`:
the canvas, the running ink bounding box, and the line counter `n`. -/
structure MultiAcc where
  img : Img
  smallest_start : Nat
  biggest_end : Nat
  n : Nat

/-- `imageutils.rs` `generate_text_image`, multi-line branch (`nlines ≥ 2`).
Each line's `generate_text_image_single_line` result (raster, start, width) is
supplied as an input, since single-line rendering consumes the external
`rusttype` font; the rasters are composed at `line_offset` and the combined
ink bounding box is tracked exactly as in the source.  The optional
`apply_gradient` pass that follows in the source is the separate
`apply_gradient` above. -/
def generate_text_image_multi (line_results : List (Img × Nat × Nat))
    (width height : Nat) (line_spacing : Nat) : Img × Nat × Nat :=
  let nlines := line_results.length
  let section_height := section_height_of height line_spacing nlines
  let init : MultiAcc := ⟨blankImg width height, width - 1, 0, 0⟩
  let res := line_results.foldl
    (fun acc lr =>
      { img := copy_image lr.1 acc.img 0 ((line_offset section_height line_spacing acc.n : Nat) : Int)
        smallest_start := if lr.2.1 < acc.smallest_start then lr.2.1 else acc.smallest_start
        biggest_end :=
          if lr.2.1 + lr.2.2 > acc.biggest_end then lr.2.1 + lr.2.2 else acc.biggest_end
        n := acc.n + 1 })
    init
  (res.img, res.smallest_start, res.biggest_end - res.smallest_start)

/-- `main.rs` `is_text_to_animate`.  The per-line `get_text_ratio` results
(width/height of the measured ink at scale `5 * section_height`, a property
of the external `rusttype` font) are supplied as the list `line_ratios`; the
threshold test, the forced flag and the running maximum of
`(section_height as f32 * text_ratio) as u32` follow the source loop. -/
def is_text_to_animate (line_ratios : List ℚ) (line_spacing : Nat)
    (dmd_width dmd_height : Nat) (force_moving_text : Bool) : Bool × Nat :=
  let nlines := line_ratios.length
  let accepable_ratio : ℚ := 3
  let all_spaces := line_spacing * (nlines - 1)
  let section_height := (dmd_height - all_spaces) / nlines
  let dmd_ratio : ℚ := (dmd_width : ℚ) / (dmd_height : ℚ)
  line_ratios.foldl
    (fun acc text_ratio =>
      if text_ratio > dmd_ratio * accepable_ratio ∨ force_moving_text = true then
        (true,
          if Nat.floor ((section_height : ℚ) * text_ratio) > acc.2 then
            Nat.floor ((section_height : ℚ) * text_ratio)
          else acc.2)
      else acc)
    (false, dmd_width)

/-- `main.rs` `send_image_text`, animation decision: the result of
`is_text_to_animate` (with `force_moving_text` passed through), overridden to
`false` when `force_moving_text == false && force_fixed_text`. -/
def send_image_text_should_animate (line_ratios : List ℚ) (line_spacing : Nat)
    (dmd_width dmd_height : Nat) (force_moving_text force_fixed_text : Bool) : Bool :=
  let should_animate :=
    (is_text_to_animate line_ratios line_spacing dmd_width dmd_height force_moving_text).1
  if force_moving_text = false ∧ force_fixed_text = true then false else should_animate

/-- `main.rs` `get_dmd_animation_from_text`: the iteration order of
`(0..dmd_width + (real_width - dmd_width) + dmd_width).rev()`. -/
def animation_range (dmd_width real_width : Nat) : List Nat :=
  (List.range (dmd_width + (real_width - dmd_width) + dmd_width)).reverse

/-- `get_dmd_animation_from_text`, one loop iteration before encoding: the
composed raster copied into a fresh display-sized canvas at horizontal offset
`npixel as i32 - start as i32 - real_width as i32`. -/
def animation_canvas (dyn_img : Img) (start real_width dmd_width dmd_height : Nat)
    (npixel : Nat) : Img :=
  copy_image dyn_img (blankImg dmd_width dmd_height)
    ((npixel : Int) - (start : Int) - (real_width : Int)) 0

/-- `main.rs` `get_dmd_animation_from_text`: the composed text raster
(produced by `generate_text_image` in the source) is supplied as
`(dyn_img, start, real_width)`; every `npixel` of `animation_range` yields one
encoded frame pushed to `frames_dmd` and one entry `speed` pushed to
`frames_duration`. -/
def get_dmd_animation_from_text (resample : Img → Nat → Nat → Img) (dyn_img : Img)
    (start real_width : Nat) (dmd_width dmd_height : Nat) (speed : Nat) :
    List Buf × List Nat :=
  ((animation_range dmd_width real_width).map
      (fun npixel =>
        image2dmdimage resample
          (animation_canvas dyn_img start real_width dmd_width dmd_height npixel)
          TextAlign.CENTER dmd_width dmd_height),
    (animation_range dmd_width real_width).map (fun _ => speed))

/-! Proof-bridging combinators: a conditional pixel write and a conditional
buffer write, used to restate the nested source loops as a single fold over
the coordinate list `pairsL` so that one set of lemmas covers them all. -/

/-- All coordinates `(x, y)` with `x < w`, `y < h`, row-major. -/
def pairsL (h w : Nat) : List (Nat × Nat) :=
  ((List.range h).map (fun y => (List.range w).map (fun x => (x, y)))).flatten

/-- One conditional pixel write. -/
def cput {α : Type} (C : α → Prop) [DecidablePred C] (T : α → Nat × Nat)
    (V : α → Rgba) (d : Img) (a : α) : Img :=
  if C a then put_pixel d (T a).1 (T a).2 (V a) else d

/-- One conditional 2-byte buffer write. -/
def cwrite {α : Type} (C : α → Prop) [DecidablePred C] (T : α → Nat)
    (V : α → Nat) (b : Buf) (a : α) : Buf :=
  if C a then writeBE16 b (T a) (V a) else b

/-! Concrete data for witnesses and counterexamples. -/

/-- A stand-in for the external Lanczos resampler: right output size,
nearest-input-pixel content.  Any function of this type is a legitimate
instance of the `resample` parameter. -/
def trivResample : Img → Nat → Nat → Img :=
  fun img w h => ⟨w, h, fun x y => img.pix x y⟩

/-- Fully opaque red ink. -/
def inkRed : Rgba := ⟨255, 0, 0, 255⟩

/-- A 3-wide, 1-high all-ink composed raster (ink box `[0, 3)`). -/
def imgInk3x1 : Img := ⟨3, 1, fun _ _ => inkRed⟩

/-- A 1x1 solid-background raster: RGB zero, alpha zero. -/
def imgZero1x1 : Img := ⟨1, 1, fun _ _ => ⟨0, 0, 0, 0⟩⟩

/-- A 1x1 gradient raster with a distinctive colour. -/
def gradGrey1x1 : Img := ⟨1, 1, fun _ _ => ⟨100, 100, 100, 255⟩⟩

/-- A 1x1 ink raster: bright red, partly transparent. -/
def imgInkA1x1 : Img := ⟨1, 1, fun _ _ => ⟨200, 0, 0, 100⟩⟩

/-- A 1x1 gradient raster with distinct channel values. -/
def gradRgb1x1 : Img := ⟨1, 1, fun _ _ => ⟨5, 6, 7, 255⟩⟩

/-- A 2x1 raster used for the identity-resize witness. -/
def imgGrey2x1 : Img := ⟨2, 1, fun _ _ => ⟨9, 9, 9, 9⟩⟩

/-- A 1x1 raster used for the copy witness. -/
def imgGrey1x1 : Img := ⟨1, 1, fun _ _ => ⟨9, 9, 9, 9⟩⟩

/-- A 1-wide, 4-high line raster for the multi-line witness. -/
def lineImg1x4 : Img := ⟨1, 4, fun _ _ => inkRed⟩

/-! ## Basic lemmas about the pixel and buffer primitives -/

theorem put_pixel_pix (d : Img) (x y : Nat) (p : Rgba) (px py : Nat) :
    (put_pixel d x y p).pix px py = if px = x ∧ py = y then p else d.pix px py := rfl

theorem put_pixel_width (d : Img) (x y : Nat) (p : Rgba) :
    (put_pixel d x y p).width = d.width := rfl

theorem put_pixel_height (d : Img) (x y : Nat) (p : Rgba) :
    (put_pixel d x y p).height = d.height := rfl

theorem foldl_map_eq {α β γ : Type} (g : α → β) (f : γ → β → γ) (L : List α) (b : γ) :
    (L.map g).foldl f b = L.foldl (fun b a => f b (g a)) b := by
  induction L generalizing b with
  | nil => rfl
  | cons a as ih => simp [ih]

theorem foldl_flatten_eq {α β : Type} (f : β → α → β) (b : β) (L : List (List α)) :
    L.flatten.foldl f b = L.foldl (fun b l => l.foldl f b) b := by
  induction L generalizing b with
  | nil => rfl
  | cons l ls ih => simp [List.foldl_append, ih]

theorem mem_pairsL {h w : Nat} {p : Nat × Nat} :
    p ∈ pairsL h w ↔ p.1 < w ∧ p.2 < h := by
  obtain ⟨px, py⟩ := p
  simp only [pairsL, List.mem_flatten, List.mem_map, List.mem_range]
  constructor
  · rintro ⟨l, ⟨y, hy, rfl⟩, hp⟩
    rcases List.mem_map.mp hp with ⟨x, hx, hxy⟩
    obtain ⟨e1, e2⟩ := Prod.mk.injEq .. ▸ hxy
    constructor
    · exact e1 ▸ List.mem_range.mp hx
    · exact e2 ▸ hy
  · rintro ⟨hx, hy⟩
    exact ⟨(List.range w).map (fun x => (x, py)), ⟨py, hy, rfl⟩,
      List.mem_map.mpr ⟨px, List.mem_range.mpr hx, rfl⟩⟩

theorem cput_width {α : Type} (C : α → Prop) [DecidablePred C] (T : α → Nat × Nat)
    (V : α → Rgba) (d : Img) (a : α) : (cput C T V d a).width = d.width := by
  unfold cput
  split <;> rfl

theorem cput_height {α : Type} (C : α → Prop) [DecidablePred C] (T : α → Nat × Nat)
    (V : α → Rgba) (d : Img) (a : α) : (cput C T V d a).height = d.height := by
  unfold cput
  split <;> rfl

theorem cput_fold_width {α : Type} (C : α → Prop) [DecidablePred C] (T : α → Nat × Nat)
    (V : α → Rgba) (L : List α) (d : Img) :
    (L.foldl (cput C T V) d).width = d.width := by
  induction L generalizing d with
  | nil => rfl
  | cons a as ih => rw [List.foldl_cons, ih, cput_width]

theorem cput_fold_height {α : Type} (C : α → Prop) [DecidablePred C] (T : α → Nat × Nat)
    (V : α → Rgba) (L : List α) (d : Img) :
    (L.foldl (cput C T V) d).height = d.height := by
  induction L generalizing d with
  | nil => rfl
  | cons a as ih => rw [List.foldl_cons, ih, cput_height]

theorem cput_fold_pix_ne {α : Type} (C : α → Prop) [DecidablePred C] (T : α → Nat × Nat)
    (V : α → Rgba) (L : List α) (d : Img) (px py : Nat)
    (h : ∀ a ∈ L, C a → T a ≠ (px, py)) :
    (L.foldl (cput C T V) d).pix px py = d.pix px py := by
  induction L generalizing d with
  | nil => rfl
  | cons a as ih =>
    rw [List.foldl_cons, ih _ (fun b hb hC => h b (List.mem_cons_of_mem a hb) hC)]
    unfold cput
    split
    case isTrue hC =>
      rw [put_pixel_pix, if_neg]
      intro hc
      exact h a (List.mem_cons_self a as) hC (Prod.ext_iff.mpr ⟨hc.1.symm, hc.2.symm⟩)
    case isFalse hC => rfl

theorem cput_fold_pix_eq {α : Type} (C : α → Prop) [DecidablePred C] (T : α → Nat × Nat)
    (V : α → Rgba) (L : List α) (d : Img) (px py : Nat) (a : α)
    (haL : a ∈ L) (hC : C a) (hT : T a = (px, py))
    (huniq : ∀ b ∈ L, C b → T b = (px, py) → V b = V a) :
    (L.foldl (cput C T V) d).pix px py = V a := by
  induction L generalizing d a with
  | nil => cases haL
  | cons x xs ih =>
    rw [List.foldl_cons]
    by_cases hex : ∃ b ∈ xs, C b ∧ T b = (px, py)
    · obtain ⟨b, hb, hCb, hTb⟩ := hex
      have hVb : V b = V a := huniq b (List.mem_cons_of_mem x hb) hCb hTb
      rw [← hVb]
      exact ih _ b hb hCb hTb
        (fun c hc hCc hTc => (huniq c (List.mem_cons_of_mem x hc) hCc hTc).trans hVb.symm)
    · have hax : a = x := by
        rcases List.mem_cons.mp haL with h1 | h1
        · exact h1
        · exact absurd ⟨a, h1, hC, hT⟩ hex
      subst hax
      rw [cput_fold_pix_ne C T V xs _ px py (fun b hb hCb hTb => hex ⟨b, hb, hCb, hTb⟩)]
      unfold cput
      rw [if_pos hC, put_pixel_pix, if_pos ⟨by rw [hT], by rw [hT]⟩]

theorem cwrite_size {α : Type} (C : α → Prop) [DecidablePred C] (T : α → Nat)
    (V : α → Nat) (b : Buf) (a : α) : (cwrite C T V b a).size = b.size := by
  unfold cwrite writeBE16
  split <;> rfl

theorem cwrite_fold_size {α : Type} (C : α → Prop) [DecidablePred C] (T : α → Nat)
    (V : α → Nat) (L : List α) (b : Buf) :
    (L.foldl (cwrite C T V) b).size = b.size := by
  induction L generalizing b with
  | nil => rfl
  | cons a as ih => rw [List.foldl_cons, ih, cwrite_size]

theorem cwrite_fold_data_ne {α : Type} (C : α → Prop) [DecidablePred C] (T : α → Nat)
    (V : α → Nat) (L : List α) (b : Buf) (i : Nat)
    (h : ∀ a ∈ L, C a → i ≠ T a ∧ i ≠ T a + 1) :
    (L.foldl (cwrite C T V) b).data i = b.data i := by
  induction L generalizing b with
  | nil => rfl
  | cons a as ih =>
    rw [List.foldl_cons, ih _ (fun c hc hC => h c (List.mem_cons_of_mem a hc) hC)]
    unfold cwrite writeBE16
    split
    case isTrue hC =>
      obtain ⟨h1, h2⟩ := h a (List.mem_cons_self a as) hC
      simp only [if_neg h1, if_neg h2]
    case isFalse hC => rfl

theorem cwrite_fold_id {α : Type} (C : α → Prop) [DecidablePred C] (T : α → Nat)
    (V : α → Nat) (L : List α) (b : Buf) (h : ∀ a ∈ L, ¬ C a) :
    L.foldl (cwrite C T V) b = b := by
  induction L generalizing b with
  | nil => rfl
  | cons a as ih =>
    rw [List.foldl_cons]
    unfold cwrite
    rw [if_neg (h a (List.mem_cons_self a as))]
    exact ih _ (fun c hc => h c (List.mem_cons_of_mem a hc))

/-! ## `copy_image` characterisation -/

theorem copy_image_eq_fold (img_src img_dst : Img) (x_offset y_offset : Int) :
    copy_image img_src img_dst x_offset y_offset =
      (pairsL img_src.height img_src.width).foldl
        (cput
          (fun p => 0 ≤ (p.1 : Int) + x_offset ∧ (p.1 : Int) + x_offset < (img_dst.width : Int)
            ∧ 0 ≤ (p.2 : Int) + y_offset ∧ (p.2 : Int) + y_offset < (img_dst.height : Int))
          (fun p => (((p.1 : Int) + x_offset).toNat, ((p.2 : Int) + y_offset).toNat))
          (fun p => img_src.pix p.1 p.2))
        img_dst := by
  unfold copy_image pairsL
  rw [foldl_flatten_eq, foldl_map_eq]
  simp only [foldl_map_eq]
  rfl

theorem copy_image_width (img_src img_dst : Img) (x_offset y_offset : Int) :
    (copy_image img_src img_dst x_offset y_offset).width = img_dst.width := by
  rw [copy_image_eq_fold]
  exact cput_fold_width _ _ _ _ _

theorem copy_image_height (img_src img_dst : Img) (x_offset y_offset : Int) :
    (copy_image img_src img_dst x_offset y_offset).height = img_dst.height := by
  rw [copy_image_eq_fold]
  exact cput_fold_height _ _ _ _ _

theorem copy_image_pix_outside (img_src img_dst : Img) (x_offset y_offset : Int)
    (px py : Nat)
    (h : ¬(px < img_dst.width ∧ py < img_dst.height
        ∧ x_offset ≤ (px : Int) ∧ (px : Int) < x_offset + img_src.width
        ∧ y_offset ≤ (py : Int) ∧ (py : Int) < y_offset + img_src.height)) :
    (copy_image img_src img_dst x_offset y_offset).pix px py = img_dst.pix px py := by
  rw [copy_image_eq_fold]
  refine cput_fold_pix_ne _ _ _ _ _ _ _ ?_
  rintro ⟨x, y⟩ hmem hC hT
  obtain ⟨hx, hy⟩ := mem_pairsL.mp hmem
  obtain ⟨c1, c2, c3, c4⟩ := hC
  have h1 : ((x : Int) + x_offset).toNat = px := congrArg Prod.fst hT
  have h2 : ((y : Int) + y_offset).toNat = py := congrArg Prod.snd hT
  apply h
  refine ⟨by omega, by omega, by omega, by omega, by omega, by omega⟩

theorem copy_image_pix_inside (img_src img_dst : Img) (x_offset y_offset : Int)
    (px py : Nat) (hw : px < img_dst.width) (hh : py < img_dst.height)
    (h1 : x_offset ≤ (px : Int)) (h2 : (px : Int) < x_offset + img_src.width)
    (h3 : y_offset ≤ (py : Int)) (h4 : (py : Int) < y_offset + img_src.height) :
    (copy_image img_src img_dst x_offset y_offset).pix px py =
      img_src.pix ((px : Int) - x_offset).toNat ((py : Int) - y_offset).toNat := by
  rw [copy_image_eq_fold]
  refine cput_fold_pix_eq _ _ _ _ _ px py
    (((px : Int) - x_offset).toNat, ((py : Int) - y_offset).toNat) ?_ ?_ ?_ ?_
  · exact mem_pairsL.mpr ⟨by omega, by omega⟩
  · exact ⟨by omega, by omega, by omega, by omega⟩
  · exact Prod.ext_iff.mpr ⟨by omega, by omega⟩
  · rintro ⟨bx, bz⟩ hmem hC hT
    obtain ⟨hbx, hbz⟩ := mem_pairsL.mp hmem
    obtain ⟨d1, d2, d3, d4⟩ := hC
    have e1 : ((bx : Int) + x_offset).toNat = px := congrArg Prod.fst hT
    have e2 : ((bz : Int) + y_offset).toNat = py := congrArg Prod.snd hT
    have f1 : bx = ((px : Int) - x_offset).toNat := by omega
    have f2 : bz = ((py : Int) - y_offset).toNat := by omega
    rw [f1, f2]

/-- C9: `copy_image` mutates no destination pixel outside the destination
bounds, and no destination pixel outside the translated source rectangle:
whenever a pixel of the result differs from the destination's, its
coordinates are inside the destination and inside the rectangle
`[x_offset, x_offset + src.width) × [y_offset, y_offset + src.height)`
(offsets may be negative or push the source partly or fully outside). -/
theorem C9_copy_image_safety (img_src img_dst : Img) (x_offset y_offset : Int) :
    (copy_image img_src img_dst x_offset y_offset).width = img_dst.width
    ∧ (copy_image img_src img_dst x_offset y_offset).height = img_dst.height
    ∧ ∀ px py : Nat,
        (copy_image img_src img_dst x_offset y_offset).pix px py ≠ img_dst.pix px py →
        px < img_dst.width ∧ py < img_dst.height
          ∧ x_offset ≤ (px : Int) ∧ (px : Int) < x_offset + img_src.width
          ∧ y_offset ≤ (py : Int) ∧ (py : Int) < y_offset + img_src.height := by
  refine ⟨copy_image_width _ _ _ _, copy_image_height _ _ _ _, ?_⟩
  intro px py hne
  by_contra hnot
  exact hne (copy_image_pix_outside _ _ _ _ _ _ hnot)

/-- C9 witness: a concrete changed pixel is inside bounds and inside the
translated rectangle. -/
theorem C9_witness :
    (copy_image imgGrey1x1 (blankImg 2 1) 0 0).pix 0 0 ≠ (blankImg 2 1).pix 0 0
    ∧ ((0 : Nat) < (blankImg 2 1).width ∧ (0 : Nat) < (blankImg 2 1).height
        ∧ (0 : Int) ≤ ((0 : Nat) : Int) ∧ ((0 : Nat) : Int) < 0 + imgGrey1x1.width
        ∧ (0 : Int) ≤ ((0 : Nat) : Int) ∧ ((0 : Nat) : Int) < 0 + imgGrey1x1.height) :=
  ⟨by decide, (C9_copy_image_safety imgGrey1x1 (blankImg 2 1) 0 0).2.2 0 0 (by decide)⟩

/-- C8: when the target box has exactly the source's dimensions,
`resize_image_to_fit` returns the source pixels unchanged, start offset 0 and
placed width equal to the target width; no resampling call is made. -/
theorem C8_resize_identity (resample : Img → Nat → Nat → Img) (img : Img)
    (width height : Nat) (text_align : TextAlign)
    (h1 : width = img.width) (h2 : height = img.height) :
    resize_image_to_fit resample img width height text_align = (img, 0, width) := by
  unfold resize_image_to_fit
  rw [if_pos ⟨h1, h2⟩]

/-- C8 witness: identity placement on a concrete 2x1 raster. -/
theorem C8_witness :
    2 = imgGrey2x1.width ∧ 1 = imgGrey2x1.height
    ∧ resize_image_to_fit trivResample imgGrey2x1 2 1 TextAlign.CENTER = (imgGrey2x1, 0, 2) :=
  ⟨rfl, rfl, C8_resize_identity trivResample imgGrey2x1 2 1 TextAlign.CENTER rfl rfl⟩

/-! ## `apply_gradient` characterisation -/

theorem apply_gradient_eq_fold (img gradient : Img) :
    apply_gradient img gradient =
      (pairsL img.height img.width).foldl
        (cput (fun p => p.1 < gradient.width ∧ p.2 < gradient.height)
          (fun p => (p.1, p.2))
          (fun p =>
            if ((img.pix p.1 p.2).r > 15 ∨ (img.pix p.1 p.2).g > 15
                  ∨ (img.pix p.1 p.2).b > 15)
                ∧ (img.pix p.1 p.2).a < 245 then
              Rgba.mk (gradient.pix p.1 p.2).r (gradient.pix p.1 p.2).g
                (gradient.pix p.1 p.2).b (img.pix p.1 p.2).a
            else Rgba.mk 0 0 0 0))
        (blankImg img.width img.height) := by
  unfold apply_gradient pairsL
  rw [foldl_flatten_eq, foldl_map_eq]
  simp only [foldl_map_eq]
  rfl

/-- C2 (amended): inside the gradient extent, `apply_gradient` replaces the
rendered pixel's RGB with the gradient's RGB while preserving the rendered
alpha exactly when some RGB channel exceeds 15 AND the alpha is below 245
(the source condition is a conjunction, not the disjunction the claim
states); otherwise the output pixel is transparent black. -/
theorem C2_apply_gradient_amended (img gradient : Img) (px py : Nat)
    (hx : px < img.width) (hy : py < img.height) :
    (apply_gradient img gradient).pix px py =
      if px < gradient.width ∧ py < gradient.height then
        (if ((img.pix px py).r > 15 ∨ (img.pix px py).g > 15 ∨ (img.pix px py).b > 15)
            ∧ (img.pix px py).a < 245 then
          Rgba.mk (gradient.pix px py).r (gradient.pix px py).g (gradient.pix px py).b
            (img.pix px py).a
        else Rgba.mk 0 0 0 0)
      else Rgba.mk 0 0 0 0 := by
  rw [apply_gradient_eq_fold]
  by_cases hg : px < gradient.width ∧ py < gradient.height
  · rw [if_pos hg]
    exact cput_fold_pix_eq _ _ _ _ _ px py (px, py) (mem_pairsL.mpr ⟨hx, hy⟩) hg rfl
      (fun b hb hCb hTb => by
        obtain ⟨b1, b2⟩ := b
        injection hTb with e1 e2
        subst e1
        subst e2
        rfl)
  · rw [if_neg hg]
    rw [cput_fold_pix_ne _ _ _ _ _ _ _ (fun b hb hCb hTb => by
      obtain ⟨b1, b2⟩ := b
      injection hTb with e1 e2
      subst e1
      subst e2
      exact hg hCb)]
    rfl

/-- C2 counterexample: a solid-background pixel `(0,0,0,0)` has alpha below
245, so the claimed disjunctive condition would recolour it with the
gradient's RGB, but the code maps it to transparent black. -/
theorem C2_counterexample :
    ((imgZero1x1.pix 0 0).r > 15 ∨ (imgZero1x1.pix 0 0).g > 15
      ∨ (imgZero1x1.pix 0 0).b > 15 ∨ (imgZero1x1.pix 0 0).a < 245)
    ∧ (apply_gradient imgZero1x1 gradGrey1x1).pix 0 0 ≠
        Rgba.mk (gradGrey1x1.pix 0 0).r (gradGrey1x1.pix 0 0).g (gradGrey1x1.pix 0 0).b
          (imgZero1x1.pix 0 0).a :=
  ⟨by decide, by decide⟩

/-- C2 witness: a genuine ink pixel inside the gradient extent is recoloured
with the gradient's RGB and keeps its own alpha. -/
theorem C2_witness :
    0 < imgInkA1x1.width ∧ 0 < imgInkA1x1.height
    ∧ (apply_gradient imgInkA1x1 gradRgb1x1).pix 0 0 = Rgba.mk 5 6 7 100 :=
  ⟨by decide, by decide, by
    rw [C2_apply_gradient_amended imgInkA1x1 gradRgb1x1 0 0 (by decide) (by decide)]
    decide⟩

/-! ## Scroll-animation frames (C3, C4) -/

theorem range_reverse_head (n : Nat) (h : 0 < n) :
    (List.range n).reverse.head? = some (n - 1) := by
  obtain ⟨m, rfl⟩ : ∃ m, n = m + 1 := ⟨n - 1, by omega⟩
  rw [List.range_succ]
  simp

theorem range_reverse_getLast (n : Nat) (h : 0 < n) :
    (List.range n).reverse.getLast? = some 0 := by
  rw [List.getLast?_reverse, List.head?_range, if_neg (by omega)]

/-- C3 (amended): when `real_width > dmd_width`, the last generated frame is
fully blank, but the first generated frame is not blank in general: the only
display column it can show ink in is `dmd_width - 1` (which receives the
composed raster's column `start`, the first ink column).  The first and last
generated frames correspond to `npixel = dmd_width + (real_width - dmd_width)
+ dmd_width - 1` and `npixel = 0` of the source loop. -/
theorem C3_scroll_frames_amended (dyn_img : Img)
    (start real_width dmd_width dmd_height : Nat)
    (hW : 0 < dmd_width) (hrw : dmd_width < real_width)
    (hInk : ∀ x, x < dyn_img.width → ∀ y, y < dyn_img.height →
      ¬ rgb_zero (dyn_img.pix x y) → start ≤ x ∧ x < start + real_width) :
    (animation_range dmd_width real_width).head? =
        some (dmd_width + (real_width - dmd_width) + dmd_width - 1)
    ∧ (animation_range dmd_width real_width).getLast? = some 0
    ∧ (∀ px py, px < dmd_width → py < dmd_height →
        rgb_zero ((animation_canvas dyn_img start real_width dmd_width dmd_height 0).pix px py))
    ∧ (∀ px py, px < dmd_width → py < dmd_height →
        ¬ rgb_zero ((animation_canvas dyn_img start real_width dmd_width dmd_height
            (dmd_width + (real_width - dmd_width) + dmd_width - 1)).pix px py) →
        px = dmd_width - 1) := by
  have hwidth : (blankImg dmd_width dmd_height).width = dmd_width := rfl
  have hheight : (blankImg dmd_width dmd_height).height = dmd_height := rfl
  refine ⟨range_reverse_head _ (by omega), range_reverse_getLast _ (by omega), ?_, ?_⟩
  · intro px py hpx hpy
    unfold animation_canvas
    by_cases hin : ((0 : Nat) : Int) - (start : Int) - (real_width : Int) ≤ (px : Int)
        ∧ (px : Int) < ((0 : Nat) : Int) - (start : Int) - (real_width : Int) + dyn_img.width
        ∧ (0 : Int) ≤ (py : Int) ∧ (py : Int) < 0 + dyn_img.height
    · rw [copy_image_pix_inside _ _ _ _ _ _ (hwidth ▸ hpx) (hheight ▸ hpy)
        hin.1 hin.2.1 hin.2.2.1 hin.2.2.2]
      by_cases hz : rgb_zero (dyn_img.pix
          ((px : Int) - (((0 : Nat) : Int) - (start : Int) - (real_width : Int))).toNat
          ((py : Int) - 0).toNat)
      · exact hz
      · exfalso
        obtain ⟨hb1, hb2⟩ := hInk _ (by omega) _ (by omega) hz
        omega
    · rw [copy_image_pix_outside _ _ _ _ _ _ (fun hcon =>
        hin ⟨hcon.2.2.1, hcon.2.2.2.1, hcon.2.2.2.2.1, hcon.2.2.2.2.2⟩)]
      exact ⟨rfl, rfl, rfl⟩
  · intro px py hpx hpy hnz
    unfold animation_canvas at hnz
    by_cases hin : ((dmd_width + (real_width - dmd_width) + dmd_width - 1 : Nat) : Int)
          - (start : Int) - (real_width : Int) ≤ (px : Int)
        ∧ (px : Int) < ((dmd_width + (real_width - dmd_width) + dmd_width - 1 : Nat) : Int)
          - (start : Int) - (real_width : Int) + dyn_img.width
        ∧ (0 : Int) ≤ (py : Int) ∧ (py : Int) < 0 + dyn_img.height
    · rw [copy_image_pix_inside _ _ _ _ _ _ (hwidth ▸ hpx) (hheight ▸ hpy)
        hin.1 hin.2.1 hin.2.2.1 hin.2.2.2] at hnz
      obtain ⟨hb1, hb2⟩ := hInk _ (by omega) _ (by omega) hnz
      omega
    · rw [copy_image_pix_outside _ _ _ _ _ _ (fun hcon =>
        hin ⟨hcon.2.2.1, hcon.2.2.2.1, hcon.2.2.2.2.1, hcon.2.2.2.2.2⟩)] at hnz
      exact absurd ⟨rfl, rfl, rfl⟩ hnz

/-- C3 counterexample: for a 3-wide all-ink composed raster scrolled over a
2-wide display (so `real_width = 3 > 2 = dmd_width`), the first generated
frame (`npixel = 2 + (3 - 2) + 2 - 1`) shows ink at display pixel `(1, 0)`,
so the first frame is not fully blank as the claim states. -/
theorem C3_counterexample :
    2 < 3
    ∧ (∀ x, x < imgInk3x1.width → ∀ y, y < imgInk3x1.height →
        ¬ rgb_zero (imgInk3x1.pix x y) → 0 ≤ x ∧ x < 0 + 3)
    ∧ (1 : Nat) < 2 ∧ (0 : Nat) < 1
    ∧ ¬ rgb_zero ((animation_canvas imgInk3x1 0 3 2 1 (2 + (3 - 2) + 2 - 1)).pix 1 0) :=
  ⟨by decide, by decide, by decide, by decide, by decide⟩

/-- C3 witness: the amended statement at the concrete scroll instance. -/
theorem C3_witness :
    (0 < 2 ∧ 2 < 3)
    ∧ (animation_range 2 3).getLast? = some 0
    ∧ (∀ px py, px < 2 → py < 1 →
        rgb_zero ((animation_canvas imgInk3x1 0 3 2 1 0).pix px py)) :=
  ⟨⟨by decide, by decide⟩,
    (C3_scroll_frames_amended imgInk3x1 0 3 2 1 (by decide) (by decide) (by decide)).2.1,
    (C3_scroll_frames_amended imgInk3x1 0 3 2 1 (by decide) (by decide) (by decide)).2.2.1⟩

/-- C4: for a composed raster of ink width `real_width ≥ dmd_width`, the
generator produces exactly `dmd_width + (real_width - dmd_width) + dmd_width
= real_width + dmd_width` frames, and every frame is assigned the same
caller-supplied duration `speed`. -/
theorem C4_frame_count (resample : Img → Nat → Nat → Img) (dyn_img : Img)
    (start real_width dmd_width dmd_height speed : Nat)
    (h : dmd_width ≤ real_width) :
    (get_dmd_animation_from_text resample dyn_img start real_width dmd_width
        dmd_height speed).1.length = dmd_width + (real_width - dmd_width) + dmd_width
    ∧ dmd_width + (real_width - dmd_width) + dmd_width = real_width + dmd_width
    ∧ (get_dmd_animation_from_text resample dyn_img start real_width dmd_width
        dmd_height speed).2.length = dmd_width + (real_width - dmd_width) + dmd_width
    ∧ ∀ d ∈ (get_dmd_animation_from_text resample dyn_img start real_width dmd_width
        dmd_height speed).2, d = speed := by
  refine ⟨?_, by omega, ?_, ?_⟩
  · simp [get_dmd_animation_from_text, animation_range]
  · simp [get_dmd_animation_from_text, animation_range]
  · intro d hd
    simp only [get_dmd_animation_from_text, List.mem_map] at hd
    obtain ⟨_, _, hde⟩ := hd
    exact hde.symm

/-- C4 witness: concrete frame count for `real_width = 3`, `dmd_width = 2`. -/
theorem C4_witness :
    2 ≤ 3
    ∧ (get_dmd_animation_from_text trivResample imgInk3x1 0 3 2 1 30).1.length
        = 2 + (3 - 2) + 2 :=
  ⟨by decide, (C4_frame_count trivResample imgInk3x1 0 3 2 1 30 (by decide)).1⟩

/-! ## Frame-buffer layout (C1, C10) -/

theorem foldl_congr_own {α β : Type} (f g : β → α → β) (L : List α) (b : β)
    (h : ∀ b2 a, a ∈ L → f b2 a = g b2 a) : L.foldl f b = L.foldl g b := by
  induction L generalizing b with
  | nil => rfl
  | cons a as ih =>
    rw [List.foldl_cons, List.foldl_cons, h b a (List.mem_cons_self a as)]
    exact ih _ (fun b2 c hc => h b2 c (List.mem_cons_of_mem a hc))

theorem dmd_fill_eq_fold (rs : Img) (dmd_width dmd_height x_offset y_offset : Nat)
    (b0 : Buf) :
    dmd_fill rs dmd_width dmd_height x_offset y_offset b0 =
      (pairsL dmd_height dmd_width).foldl
        (cwrite
          (fun p => (y_offset ≤ p.2 ∧ p.2 < rs.height + y_offset)
            ∧ (x_offset ≤ p.1 ∧ p.1 < rs.width + x_offset))
          (fun p => (p.2 * dmd_width + p.1) * 2)
          (fun p => rgb888_to_rgb565 (rs.pix (p.1 - x_offset) (p.2 - y_offset)).r
            (rs.pix (p.1 - x_offset) (p.2 - y_offset)).g
            (rs.pix (p.1 - x_offset) (p.2 - y_offset)).b))
        b0 := by
  unfold dmd_fill pairsL
  rw [foldl_flatten_eq, foldl_map_eq]
  refine foldl_congr_own _ _ _ _ ?_
  intro b y hy
  rw [foldl_map_eq]
  by_cases hyg : y_offset ≤ y ∧ y < rs.height + y_offset
  · rw [if_pos hyg]
    refine foldl_congr_own _ _ _ _ ?_
    intro b2 x hx
    by_cases hxg : x_offset ≤ x ∧ x < rs.width + x_offset
    · rw [if_pos hxg]
      unfold cwrite
      rw [if_pos ⟨hyg, hxg⟩]
    · rw [if_neg hxg]
      unfold cwrite
      rw [if_neg (fun hc => hxg hc.2)]
  · rw [if_neg hyg]
    exact (cwrite_fold_id _ _ _ _ _ (fun p hp hc => hyg hc.1)).symm

theorem image2dmdimage_size (resample : Img → Nat → Nat → Img) (orig_img : Img)
    (text_align : TextAlign) (dmd_width dmd_height : Nat) :
    (image2dmdimage resample orig_img text_align dmd_width dmd_height).size
      = dmd_width * dmd_height * 3 := by
  simp only [image2dmdimage]
  rw [dmd_fill_eq_fold, cwrite_fold_size]
  rfl

theorem index_inj (W x1 y1 x2 y2 : Nat) (hx1 : x1 < W) (hx2 : x2 < W)
    (h : y1 * W + x1 = y2 * W + x2) : y1 = y2 ∧ x1 = x2 := by
  have hW : 0 < W := by omega
  have m1 : (y1 * W + x1) % W = x1 := by
    rw [Nat.mul_comm y1 W, Nat.mul_add_mod, Nat.mod_eq_of_lt hx1]
  have m2 : (y2 * W + x2) % W = x2 := by
    rw [Nat.mul_comm y2 W, Nat.mul_add_mod, Nat.mod_eq_of_lt hx2]
  have d1 : (y1 * W + x1) / W = y1 := by
    rw [Nat.mul_comm y1 W, Nat.mul_add_div hW, Nat.div_eq_of_lt hx1, Nat.add_zero]
  have d2 : (y2 * W + x2) / W = y2 := by
    rw [Nat.mul_comm y2 W, Nat.mul_add_div hW, Nat.div_eq_of_lt hx2, Nat.add_zero]
  constructor
  · rw [← d1, ← d2, h]
  · rw [← m1, ← m2, h]

theorem image2dmdimage_data_tail (resample : Img → Nat → Nat → Img) (orig_img : Img)
    (text_align : TextAlign) (dmd_width dmd_height : Nat) (i : Nat)
    (hi : dmd_width * dmd_height * 2 ≤ i) :
    (image2dmdimage resample orig_img text_align dmd_width dmd_height).data i = 0 := by
  simp only [image2dmdimage]
  rw [dmd_fill_eq_fold]
  refine (cwrite_fold_data_ne _ _ _ _ _ _ ?_).trans rfl
  rintro ⟨x, y⟩ hmem hC
  dsimp only at hC ⊢
  obtain ⟨hx, hy⟩ := mem_pairsL.mp hmem
  have h1 : y * dmd_width + x + 1 ≤ dmd_height * dmd_width := by
    have h2 : (y + 1) * dmd_width = y * dmd_width + dmd_width := by ring
    have h3 : (y + 1) * dmd_width ≤ dmd_height * dmd_width :=
      Nat.mul_le_mul_right _ (by omega)
    omega
  have h4 : dmd_width * dmd_height = dmd_height * dmd_width := Nat.mul_comm _ _
  constructor <;> omega

theorem image2dmdimage_data_outside (resample : Img → Nat → Nat → Img) (orig_img : Img)
    (text_align : TextAlign) (dmd_width dmd_height : Nat) (x y : Nat)
    (hx : x < dmd_width) (hy : y < dmd_height)
    (hreg : ¬((dmd_y_offset dmd_height
          (dmd_resized resample orig_img dmd_width dmd_height).height ≤ y
        ∧ y < (dmd_resized resample orig_img dmd_width dmd_height).height
            + dmd_y_offset dmd_height
              (dmd_resized resample orig_img dmd_width dmd_height).height)
      ∧ (dmd_x_offset text_align dmd_width
          (dmd_resized resample orig_img dmd_width dmd_height).width ≤ x
        ∧ x < (dmd_resized resample orig_img dmd_width dmd_height).width
            + dmd_x_offset text_align dmd_width
              (dmd_resized resample orig_img dmd_width dmd_height).width))) :
    (image2dmdimage resample orig_img text_align dmd_width dmd_height).data
        ((y * dmd_width + x) * 2) = 0
    ∧ (image2dmdimage resample orig_img text_align dmd_width dmd_height).data
        ((y * dmd_width + x) * 2 + 1) = 0 := by
  constructor <;>
  · simp only [image2dmdimage]
    rw [dmd_fill_eq_fold]
    refine (cwrite_fold_data_ne _ _ _ _ _ _ ?_).trans rfl
    rintro ⟨px, pz⟩ hmem hC
    dsimp only at hC ⊢
    obtain ⟨hpx, hpz⟩ := mem_pairsL.mp hmem
    refine ⟨fun heq => ?_, fun heq => ?_⟩ <;>
    first
      | omega
      | (have hqq : y * dmd_width + x = pz * dmd_width + px := by omega
         obtain ⟨e1, e2⟩ := index_inj dmd_width x y px pz hx hpx hqq
         subst e1
         subst e2
         exact hreg hC)

/-- C1 (amended): the byte buffer returned by `image2dmdimage` has length
exactly `dmd_width * dmd_height * 3` bytes (the `get_dmd_buffer_size`
formula), not `dmd_width * dmd_height * 2` as the claim states; only the
first `dmd_width * dmd_height * 2` bytes ever carry pixel data. -/
theorem C1_buffer_size_amended (resample : Img → Nat → Nat → Img) (orig_img : Img)
    (text_align : TextAlign) (dmd_width dmd_height : Nat) :
    (image2dmdimage resample orig_img text_align dmd_width dmd_height).size
      = dmd_width * dmd_height * 3 :=
  image2dmdimage_size resample orig_img text_align dmd_width dmd_height

/-- C1 counterexample: for a 1x1 display the returned buffer has 3 bytes,
not `1 * 1 * 2 = 2` as the claim states. -/
theorem C1_counterexample :
    (image2dmdimage trivResample imgZero1x1 TextAlign.CENTER 1 1).size ≠ 1 * 1 * 2 := by
  rw [image2dmdimage_size]
  decide

/-- C10: every buffer returned by `image2dmdimage` has length
`dmd_width * dmd_height * 3`; all bytes from index
`dmd_width * dmd_height * 2` on are zero (pixel data only ever lands below
that index), and the two bytes of every display pixel outside the placed
region are zero. -/
theorem C10_buffer_layout (resample : Img → Nat → Nat → Img) (orig_img : Img)
    (text_align : TextAlign) (dmd_width dmd_height : Nat) :
    (image2dmdimage resample orig_img text_align dmd_width dmd_height).size
        = dmd_width * dmd_height * 3
    ∧ (∀ i, dmd_width * dmd_height * 2 ≤ i →
        (image2dmdimage resample orig_img text_align dmd_width dmd_height).data i = 0)
    ∧ (∀ x, x < dmd_width → ∀ y, y < dmd_height →
        ¬((dmd_y_offset dmd_height
              (dmd_resized resample orig_img dmd_width dmd_height).height ≤ y
            ∧ y < (dmd_resized resample orig_img dmd_width dmd_height).height
                + dmd_y_offset dmd_height
                  (dmd_resized resample orig_img dmd_width dmd_height).height)
          ∧ (dmd_x_offset text_align dmd_width
              (dmd_resized resample orig_img dmd_width dmd_height).width ≤ x
            ∧ x < (dmd_resized resample orig_img dmd_width dmd_height).width
                + dmd_x_offset text_align dmd_width
                  (dmd_resized resample orig_img dmd_width dmd_height).width)) →
        (image2dmdimage resample orig_img text_align dmd_width dmd_height).data
            ((y * dmd_width + x) * 2) = 0
        ∧ (image2dmdimage resample orig_img text_align dmd_width dmd_height).data
            ((y * dmd_width + x) * 2 + 1) = 0) := by
  refine ⟨image2dmdimage_size resample orig_img text_align dmd_width dmd_height, ?_, ?_⟩
  · intro i hi
    exact image2dmdimage_data_tail resample orig_img text_align dmd_width dmd_height i hi
  · intro x hx y hy hreg
    exact image2dmdimage_data_outside resample orig_img text_align dmd_width dmd_height
      x y hx hy hreg

/-- C10 witness: byte 4 of a 2x1 display buffer (the tail past the pixel
data) is zero. -/
theorem C10_witness :
    2 * 1 * 2 ≤ 4
    ∧ (image2dmdimage trivResample imgGrey1x1 TextAlign.CENTER 2 1).data 4 = 0 :=
  ⟨by decide,
    (C10_buffer_layout trivResample imgGrey1x1 TextAlign.CENTER 2 1).2.1 4 (by decide)⟩

/-! ## Animation decision (C5, C7) -/

theorem animate_foldl_false_iff (thr : ℚ) (sh : Nat) (L : List ℚ) :
    ∀ acc : Bool × Nat,
      ((L.foldl
          (fun acc text_ratio =>
            if text_ratio > thr ∨ (false : Bool) = true then
              (true,
                if Nat.floor ((sh : ℚ) * text_ratio) > acc.2 then
                  Nat.floor ((sh : ℚ) * text_ratio)
                else acc.2)
            else acc)
          acc).1 = true)
      ↔ (acc.1 = true ∨ ∃ r ∈ L, r > thr) := by
  induction L with
  | nil =>
    intro acc
    simp
  | cons r rs ih =>
    intro acc
    rw [List.foldl_cons]
    by_cases hr : r > thr
    · rw [if_pos (Or.inl hr)]
      rw [ih]
      simp [hr]
    · rw [if_neg (by simp [hr])]
      rw [ih]
      simp only [List.mem_cons]
      constructor
      · rintro (h | ⟨r2, hr2, hgt⟩)
        · exact Or.inl h
        · exact Or.inr ⟨r2, Or.inr hr2, hgt⟩
      · rintro (h | ⟨r2, hr2 | hr2, hgt⟩)
        · exact Or.inl h
        · exact absurd (hr2 ▸ hgt) hr
        · exact Or.inr ⟨r2, hr2, hgt⟩

theorem animate_foldl_true_forces (thr : ℚ) (sh : Nat) (L : List ℚ) :
    ∀ acc : Bool × Nat, L ≠ [] →
      ((L.foldl
          (fun acc text_ratio =>
            if text_ratio > thr ∨ (true : Bool) = true then
              (true,
                if Nat.floor ((sh : ℚ) * text_ratio) > acc.2 then
                  Nat.floor ((sh : ℚ) * text_ratio)
                else acc.2)
            else acc)
          acc).1 = true) := by
  induction L with
  | nil =>
    intro acc h
    exact absurd rfl h
  | cons r rs ih =>
    intro acc h
    rw [List.foldl_cons, if_pos (Or.inr rfl)]
    by_cases hrs : rs = []
    · subst hrs
      rfl
    · exact ih _ hrs

/-- C5: without force flags, `is_text_to_animate` reports "must scroll" if
and only if at least one line's measured ratio is strictly greater than
`dmd_ratio * 3.0`; a ratio exactly equal to the threshold does not trigger
scrolling.  The per-line `get_text_ratio` results are the list
`line_ratios`. -/
theorem C5_animation_threshold (line_ratios : List ℚ)
    (line_spacing dmd_width dmd_height : Nat)
    (h1 : line_ratios ≠ []) (h2 : 0 < dmd_height)
    (h3 : line_spacing * (line_ratios.length - 1) ≤ dmd_height) :
    (is_text_to_animate line_ratios line_spacing dmd_width dmd_height false).1 = true
      ↔ ∃ r ∈ line_ratios, r > (dmd_width : ℚ) / (dmd_height : ℚ) * 3 := by
  simp only [is_text_to_animate]
  rw [animate_foldl_false_iff ((dmd_width : ℚ) / (dmd_height : ℚ) * 3)
    ((dmd_height - line_spacing * (line_ratios.length - 1)) / line_ratios.length)
    line_ratios (false, dmd_width)]
  simp

/-- C5 witness: one line with ratio 13 exceeds the 128x32 threshold 12; the
decision and the existential agree at this input. -/
theorem C5_witness :
    ([(13 : ℚ)] ≠ [] ∧ 0 < 32 ∧ 2 * (([(13 : ℚ)] : List ℚ).length - 1) ≤ 32)
    ∧ ((is_text_to_animate [(13 : ℚ)] 2 128 32 false).1 = true
        ↔ ∃ r ∈ [(13 : ℚ)], r > (128 : ℚ) / (32 : ℚ) * 3) :=
  ⟨⟨by simp, by decide, by decide⟩,
    C5_animation_threshold [(13 : ℚ)] 2 128 32 (by simp) (by decide) (by decide)⟩

/-- C7: when the force-moving flag is set, the text animates regardless of
the force-fixed flag and of the ratios; when only the force-fixed flag is
set, animation is suppressed regardless of the ratios (force-off yields only
when force-on is also set). -/
theorem C7_force_flags (line_ratios : List ℚ) (line_spacing dmd_width dmd_height : Nat)
    (force_fixed_text : Bool) (h1 : line_ratios ≠ []) (h2 : 0 < dmd_height)
    (h3 : line_spacing * (line_ratios.length - 1) ≤ dmd_height) :
    send_image_text_should_animate line_ratios line_spacing dmd_width dmd_height true
        force_fixed_text = true
    ∧ send_image_text_should_animate line_ratios line_spacing dmd_width dmd_height false
        true = false := by
  constructor
  · unfold send_image_text_should_animate
    rw [if_neg (by simp)]
    exact animate_foldl_true_forces ((dmd_width : ℚ) / (dmd_height : ℚ) * 3)
      ((dmd_height - line_spacing * (line_ratios.length - 1)) / line_ratios.length)
      line_ratios (false, dmd_width) h1
  · unfold send_image_text_should_animate
    rw [if_pos ⟨rfl, rfl⟩]

/-- C7 witness: force flags at a concrete single-line input. -/
theorem C7_witness :
    ([(1 : ℚ)] ≠ [] ∧ 0 < 32 ∧ 2 * (([(1 : ℚ)] : List ℚ).length - 1) ≤ 32)
    ∧ send_image_text_should_animate [(1 : ℚ)] 2 128 32 true true = true
    ∧ send_image_text_should_animate [(1 : ℚ)] 2 128 32 false true = false :=
  ⟨⟨by simp, by decide, by decide⟩,
    (C7_force_flags [(1 : ℚ)] 2 128 32 true (by simp) (by decide) (by decide)).1,
    (C7_force_flags [(1 : ℚ)] 2 128 32 true (by simp) (by decide) (by decide)).2⟩

/-! ## Multi-line composition (C6) -/

theorem multi_fold_outside_rows (line_spacing sh : Nat) :
    ∀ (L : List (Img × Nat × Nat)), (∀ lr ∈ L, lr.1.height = sh) →
      ∀ (acc : MultiAcc) (x y : Nat),
        (∀ k, acc.n ≤ k → k < acc.n + L.length →
          ¬(line_offset sh line_spacing k ≤ y
            ∧ y < line_offset sh line_spacing k + sh)) →
        ((L.foldl
            (fun acc lr =>
              { img := copy_image lr.1 acc.img 0
                  ((line_offset sh line_spacing acc.n : Nat) : Int)
                smallest_start :=
                  if lr.2.1 < acc.smallest_start then lr.2.1 else acc.smallest_start
                biggest_end :=
                  if lr.2.1 + lr.2.2 > acc.biggest_end then lr.2.1 + lr.2.2
                  else acc.biggest_end
                n := acc.n + 1 })
            acc).img.pix x y) = acc.img.pix x y := by
  intro L
  induction L with
  | nil =>
    intro hdim acc x y hy
    rfl
  | cons lr L2 ih =>
    intro hdim acc x y hy
    rw [List.foldl_cons]
    have hh : lr.1.height = sh := hdim lr (List.mem_cons_self lr L2)
    have hk := hy acc.n (Nat.le_refl _) (by simp)
    have hstep : (copy_image lr.1 acc.img 0
        ((line_offset sh line_spacing acc.n : Nat) : Int)).pix x y = acc.img.pix x y := by
      apply copy_image_pix_outside
      intro hcon
      apply hk
      obtain ⟨c1, c2, c3, c4, c5, c6⟩ := hcon
      rw [hh] at c6
      constructor <;> omega
    rw [ih (fun lr2 h2 => hdim lr2 (List.mem_cons_of_mem lr h2)) _ x y
      (fun k hk1 hk2 => hy k (by simp at hk1 ⊢; omega) (by simp at hk2 ⊢; omega))]
    exact hstep

/-- C6: for `N ≥ 2` lines with spacing `S` and total height `H`, the section
height is `(H - S * (N - 1)) / N` (floor division), line `n` is composited at
vertical offset `n * (sectionHeight + S)`, the row slots of distinct lines
never overlap, and rows outside every slot stay blank in the composed
raster. -/
theorem C6_multiline_slots (line_results : List (Img × Nat × Nat))
    (width height line_spacing : Nat)
    (hN : 2 ≤ line_results.length)
    (hsp : line_spacing * (line_results.length - 1) ≤ height)
    (hdim : ∀ lr ∈ line_results,
      lr.1.height = section_height_of height line_spacing line_results.length) :
    section_height_of height line_spacing line_results.length
        = (height - line_spacing * (line_results.length - 1)) / line_results.length
    ∧ (∀ n, line_offset (section_height_of height line_spacing line_results.length)
          line_spacing n
        = n * (section_height_of height line_spacing line_results.length + line_spacing))
    ∧ (∀ m n, m < n →
        line_offset (section_height_of height line_spacing line_results.length)
            line_spacing m
          + section_height_of height line_spacing line_results.length
        ≤ line_offset (section_height_of height line_spacing line_results.length)
            line_spacing n)
    ∧ (∀ x y, (∀ k, k < line_results.length →
          ¬(line_offset (section_height_of height line_spacing line_results.length)
                line_spacing k ≤ y
            ∧ y < line_offset (section_height_of height line_spacing line_results.length)
                  line_spacing k
              + section_height_of height line_spacing line_results.length)) →
        (generate_text_image_multi line_results width height line_spacing).1.pix x y
          = Rgba.mk 0 0 0 0) := by
  refine ⟨rfl, ?_, ?_, ?_⟩
  · intro n
    unfold line_offset
    ring
  · intro m n hmn
    unfold line_offset
    have e1 : section_height_of height line_spacing line_results.length * (m + 1)
        ≤ section_height_of height line_spacing line_results.length * n :=
      Nat.mul_le_mul_left _ (by omega)
    have e2 : (m + 1) * line_spacing ≤ n * line_spacing :=
      Nat.mul_le_mul_right _ (by omega)
    have e3 : section_height_of height line_spacing line_results.length * (m + 1)
        = section_height_of height line_spacing line_results.length * m
          + section_height_of height line_spacing line_results.length := by ring
    have e4 : (m + 1) * line_spacing = m * line_spacing + line_spacing := by ring
    omega
  · intro x y hy
    simp only [generate_text_image_multi]
    rw [multi_fold_outside_rows line_spacing
      (section_height_of height line_spacing line_results.length) line_results hdim
      ⟨blankImg width height, width - 1, 0, 0⟩ x y
      (fun k hk1 hk2 => hy k (by simpa using hk2))]
    rfl

/-- C6 witness: two 4-pixel-high lines in a 10-pixel box with spacing 2. -/
theorem C6_witness :
    (2 ≤ ([(lineImg1x4, 0, 1), (lineImg1x4, 0, 1)] : List (Img × Nat × Nat)).length
      ∧ 2 * (([(lineImg1x4, 0, 1), (lineImg1x4, 0, 1)] : List (Img × Nat × Nat)).length - 1)
          ≤ 10)
    ∧ section_height_of 10 2
          ([(lineImg1x4, 0, 1), (lineImg1x4, 0, 1)] : List (Img × Nat × Nat)).length
        = (10 - 2 * (([(lineImg1x4, 0, 1), (lineImg1x4, 0, 1)] :
              List (Img × Nat × Nat)).length - 1))
          / ([(lineImg1x4, 0, 1), (lineImg1x4, 0, 1)] : List (Img × Nat × Nat)).length :=
  ⟨⟨by decide, by decide⟩,
    (C6_multiline_slots [(lineImg1x4, 0, 1), (lineImg1x4, 0, 1)] 1 10 2
      (by decide) (by decide) (by decide)).1⟩

end DmdPlay
